import Mathlib

/-!
Shallow embedding of the Concurrent Download Queue Manager of FLACidal
(src/backend/download_manager.go).

The manager's bookkeeping state (running/paused flags, queue, active and
failed registries) is a `DMState`.  Every observable action of the Go code
(a call to the progress callback `onProgress`, an insertion into or deletion
from a registry, the channel send in `QueueDownload`, the call to the fetch
collaborator, the non-blocking send on the results channel) is a `Step`;
each operation of the manager is embedded as a function returning the list
of steps it performs, in program order, together with the state transformer
obtained by folding `applyStep` over them.

Concurrency model: within one goroutine, steps occur in program order.  A
worker may dequeue a job as soon as the producer's `Step.sendJob` for it has
occurred, so the worker's steps may interleave arbitrarily with the
producer's remaining steps; `Interleaving` captures the set of admissible
merged traces of two goroutines.
-/

namespace FLACidal

/-- Embeds the Go struct `DownloadResult` (src/backend/source_qobuz.go).
Only the fields read by the download manager are semantically relevant;
all are kept for fidelity.  `FileSize` is Go `int64`, modelled as `Int`. -/
structure DownloadResult where
  TrackID : Int
  Title : String
  Artist : String
  Album : String
  FilePath : String
  FileSize : Int
  Quality : String
  CoverURL : String
  Success : Bool
  Error : String
deriving DecidableEq, Repr

/-- Embeds the Go struct `DownloadJob`.  The Go fields `ctx` and
`cancelFunc` are set together (both by `QueueDownload`) or both nil;
`hasCtx` models their non-nilness and `tokenId` is the identity of the
cancellation context, so that signalling a token can be recorded by id. -/
structure DownloadJob where
  TrackID : Int
  OutputDir : String
  Title : String
  Artist : String
  hasCtx : Bool
  tokenId : Nat
deriving DecidableEq, Repr

/-- The status strings passed to `onProgress` by the manager. -/
inductive Status
  | queued
  | downloading
  | completed
  | error
  | cancelled
deriving DecidableEq, Repr

/-- True on the three terminal statuses. -/
def Status.isTerminal : Status → Bool
  | Status.completed => true
  | Status.error => true
  | Status.cancelled => true
  | _ => false

/-- One observable action of the manager, in the order the Go code performs
them.  `emit` is a call to the progress callback; `sendJob` is the channel
send `dm.queue <- job` in `QueueDownload`; `fetch` is the call to the fetch
collaborator `dm.service.DownloadTrack`; `sendResult` is the non-blocking
send on `dm.results`. -/
inductive Step
  | emit (trackID : Int) (status : Status) (result : Option DownloadResult)
  | sendJob (job : DownloadJob)
  | insertActive (job : DownloadJob)
  | removeActive (trackID : Int)
  | insertFailed (job : DownloadJob)
  | deleteFailed (trackID : Int)
  | fetch (trackID : Int) (outputDir : String)
  | sendResult (result : Option DownloadResult)
deriving DecidableEq, Repr

/-- The steps of a guarded callback invocation: the Go code only calls
`onProgress` under `if dm.onProgress != nil`. -/
def emitIf (hasProgress : Bool) (trackID : Int) (st : Status)
    (result : Option DownloadResult) : List Step :=
  if hasProgress then [Step.emit trackID st result] else []

/-- Embeds `processJob` (src/backend/download_manager.go, lines 136-204) as
the list of observable steps it performs, in program order.  Inputs:
`hasProgress` is whether `dm.onProgress` is non-nil; `preSignaled` and
`postSignaled` are the observed states of `job.ctx.Done()` at the pre-fetch
and post-fetch checks; `result`/`err` are the two return values of
`dm.service.DownloadTrack` (a `none` result models a nil pointer, a `none`
err models a nil error).  Returns `none` exactly when the Go code would
panic: with `err == nil` and a nil `result`, the branch condition
`err != nil || !result.Success` dereferences the nil `result` (the `||` is
short-circuiting, so a non-nil `err` never dereferences `result`). -/
def processJob (hasProgress : Bool) (job : DownloadJob)
    (preSignaled postSignaled : Bool)
    (result : Option DownloadResult) (err : Option String) :
    Option (List Step) :=
  if job.hasCtx && preSignaled then
    some (emitIf hasProgress job.TrackID Status.cancelled none)
  else
    let head := emitIf hasProgress job.TrackID Status.downloading none ++
      [Step.insertActive job, Step.deleteFailed job.TrackID,
       Step.fetch job.TrackID job.OutputDir, Step.removeActive job.TrackID]
    if job.hasCtx && postSignaled then
      some (head ++ emitIf hasProgress job.TrackID Status.cancelled none ++
        [Step.sendResult result])
    else if err.isSome then
      some (head ++ [Step.insertFailed job] ++
        emitIf hasProgress job.TrackID Status.error result ++
        [Step.sendResult result])
    else
      match result with
      | none => none
      | some r =>
        if !r.Success then
          some (head ++ [Step.insertFailed job] ++
            emitIf hasProgress job.TrackID Status.error (some r) ++
            [Step.sendResult (some r)])
        else
          some (head ++
            emitIf hasProgress job.TrackID Status.completed (some r) ++
            [Step.sendResult (some r)])

/-- Projection of a step list onto the (trackID, status) pairs a listener
observes through the progress callback. -/
def stepEvents (steps : List Step) : List (Int × Status) :=
  steps.filterMap fun s =>
    match s with
    | Step.emit tid status _ => some (tid, status)
    | _ => none

/-- Lookup in a Go map modelled as an association list (first match). -/
def mapLookup (k : Int) : List (Int × DownloadJob) → Option DownloadJob
  | [] => none
  | (k1, v) :: rest => if k1 = k then some v else mapLookup k rest

/-- Deletion from a Go map modelled as an association list. -/
def mapDelete (k : Int) (m : List (Int × DownloadJob)) :
    List (Int × DownloadJob) :=
  m.filter fun p => p.1 != k

/-- Insertion into a Go map modelled as an association list (replaces any
existing binding for the key). -/
def mapInsert (k : Int) (v : DownloadJob) (m : List (Int × DownloadJob)) :
    List (Int × DownloadJob) :=
  (k, v) :: mapDelete k m

/-- Embeds the bookkeeping state of the Go struct `DownloadManager`:
`running`, `paused`, the queue channel contents (`queue`) and whether it
has been closed, the active and failed registries, which cancellation
contexts have been signalled (by token id), a counter supplying fresh
token ids, and whether `onProgress` is non-nil. -/
structure DMState where
  running : Bool
  paused : Bool
  queueClosed : Bool
  queue : List DownloadJob
  activeJobs : List (Int × DownloadJob)
  failedJobs : List (Int × DownloadJob)
  signaled : List Nat
  nextToken : Nat
  hasProgress : Bool
deriving DecidableEq, Repr

/-- The state change performed by one observable step. -/
def applyStep (st : DMState) : Step → DMState
  | Step.emit _ _ _ => st
  | Step.sendJob job => { st with queue := st.queue ++ [job] }
  | Step.insertActive job =>
      { st with activeJobs := mapInsert job.TrackID job st.activeJobs }
  | Step.removeActive tid =>
      { st with activeJobs := mapDelete tid st.activeJobs }
  | Step.insertFailed job =>
      { st with failedJobs := mapInsert job.TrackID job st.failedJobs }
  | Step.deleteFailed tid =>
      { st with failedJobs := mapDelete tid st.failedJobs }
  | Step.fetch _ _ => st
  | Step.sendResult _ => st

/-- Folding a step list over a state. -/
def applySteps (st : DMState) (steps : List Step) : DMState :=
  steps.foldl applyStep st

/-- The job value built by `QueueDownload`: both `ctx` and `cancelFunc`
are set (`hasCtx = true`) with a fresh cancellation context. -/
def mkJob (trackID : Int) (outputDir title artist : String) (tok : Nat) :
    DownloadJob :=
  { TrackID := trackID, OutputDir := outputDir, Title := title,
    Artist := artist, hasCtx := true, tokenId := tok }

/-- The error values the manager returns.  `notRunning` embeds
`fmt.Errorf("download manager not running")`; `jobNotActive tid` embeds
`fmt.Errorf("track %d is not currently downloading", tid)`. -/
inductive DMError
  | notRunning
  | jobNotActive (trackID : Int)
deriving DecidableEq, Repr

/-- The observable steps of a successful `QueueDownload` call, in program
order: the channel send `dm.queue <- job` comes FIRST, the guarded
`onProgress(trackID, "queued", nil)` call only after it (the source
comment reads: notify queued only after successfully added). -/
def queueDownloadSteps (hasProgress : Bool) (job : DownloadJob) :
    List Step :=
  Step.sendJob job :: emitIf hasProgress job.TrackID Status.queued none

/-- Embeds `QueueDownload` (lines 207-236): under `running = false` it
returns the NotRunning error having changed nothing; otherwise it builds a
job with a fresh cancellation context, sends it on the queue, emits
`queued`, and returns nil.  Result: (new state, steps performed, error). -/
def QueueDownload (dm : DMState) (trackID : Int)
    (outputDir title artist : String) :
    DMState × List Step × Option DMError :=
  if !dm.running then
    (dm, [], some DMError.notRunning)
  else
    let job := mkJob trackID outputDir title artist dm.nextToken
    let steps := queueDownloadSteps dm.hasProgress job
    (applySteps { dm with nextToken := dm.nextToken + 1 } steps, steps, none)

/-- Embeds `Start` (lines 80-94): idempotent while running; flips
`running` to true. -/
def Start (dm : DMState) : DMState :=
  if dm.running then dm else { dm with running := true }

/-- Embeds `Stop` (lines 96-109): returns immediately when not running;
otherwise sets `running := false`, `paused := false` (broadcasting to any
paused workers) and closes the queue.  `Stop` never calls `onProgress`,
so it performs no `emit` step. -/
def Stop (dm : DMState) : DMState :=
  if !dm.running then dm
  else { dm with running := false, paused := false, queueClosed := true }

/-- Whether a call to `Stop` on this state reaches `close(dm.queue)`. -/
def stopCloses (dm : DMState) : Bool := dm.running

/-- Embeds `CancelDownload` (lines 270-286): JobNotActive unless the id is
in the active registry; otherwise calls the job's `cancelFunc` (recorded
by adding its token id to `signaled`) and returns nil. -/
def CancelDownload (dm : DMState) (trackID : Int) :
    DMState × Option DMError :=
  match mapLookup trackID dm.activeJobs with
  | none => (dm, some (DMError.jobNotActive trackID))
  | some job =>
      (if job.hasCtx then
        { dm with signaled := job.tokenId :: dm.signaled }
       else dm, none)

/-- One iteration of the re-queue loop of `RetryAllFailed`: call
`QueueDownload` with the captured job's fields and increment the counter
when it returned nil. -/
def retryStep (acc : DMState × List Step × Nat) (job : DownloadJob) :
    DMState × List Step × Nat :=
  let res := QueueDownload acc.1 job.TrackID job.OutputDir job.Title
    job.Artist
  (res.1, acc.2.1 ++ res.2.1,
   if res.2.2 = none then acc.2.2 + 1 else acc.2.2)

/-- Embeds `RetryAllFailed` (lines 289-310): snapshot the failed registry
and clear it under the lock, then re-enqueue each captured job through
`QueueDownload` (which builds a fresh job with a new cancellation
context), counting the calls that returned nil.  Result: (new state,
steps performed, count returned). -/
def RetryAllFailed (dm : DMState) : DMState × List Step × Nat :=
  (dm.failedJobs.map Prod.snd).foldl retryStep
    ({ dm with failedJobs := [] }, [], 0)

/-- The jobs the retry loop hands to the queue: a fresh copy of each
captured job, carrying consecutive fresh token ids. -/
def freshCopies : List DownloadJob → Nat → List DownloadJob
  | [], _ => []
  | j :: rest, tok =>
      mkJob j.TrackID j.OutputDir j.Title j.Artist tok ::
        freshCopies rest (tok + 1)

/-- Embeds `GetActiveCount` (lines 249-253). -/
def GetActiveCount (dm : DMState) : Nat := dm.activeJobs.length

/-- Embeds `GetQueueLength` (lines 256-258). -/
def GetQueueLength (dm : DMState) : Nat := dm.queue.length

/-- Embeds `GetFailedCount` (lines 313-317). -/
def GetFailedCount (dm : DMState) : Nat := dm.failedJobs.length

/-- Embeds `ClearFailed` (lines 320-326). -/
def ClearFailed (dm : DMState) : DMState × Nat :=
  ({ dm with failedJobs := [] }, dm.failedJobs.length)

/-- Embeds `IsRunning` (lines 261-265). -/
def IsRunning (dm : DMState) : Bool := dm.running

/-- Embeds `PauseQueue` (lines 329-337): returns false leaving the state
untouched when already paused, else sets `paused := true` and returns
true.  Boolean signal, never an error. -/
def PauseQueue (dm : DMState) : DMState × Bool :=
  if dm.paused then (dm, false)
  else ({ dm with paused := true }, true)

/-- Embeds `ResumeQueue` (lines 340-349): returns false leaving the state
untouched when not paused, else sets `paused := false`, broadcasts to all
waiting workers, and returns true. -/
def ResumeQueue (dm : DMState) : DMState × Bool :=
  if !dm.paused then (dm, false)
  else ({ dm with paused := false }, true)

/-- Embeds `IsPaused` (lines 352-356). -/
def IsPaused (dm : DMState) : Bool := dm.paused

/-- Admissible merged traces of two goroutines: `Interleaving as bs t`
holds when `t` is a merge of `as` and `bs` preserving the program order
of each. -/
inductive Interleaving : List Step → List Step → List Step → Prop
  | nil : Interleaving [] [] []
  | left {a : Step} {as bs t : List Step} :
      Interleaving as bs t → Interleaving (a :: as) bs (a :: t)
  | right {b : Step} {as bs t : List Step} :
      Interleaving as bs t → Interleaving as (b :: bs) (b :: t)

/-! Concrete sample values, used to instantiate the theorems below. -/

/-- A sample job with the given id and token. -/
def sampleJob (tid : Int) (tok : Nat) : DownloadJob :=
  mkJob tid "o" "t" "a" tok

/-- A sample successful fetch result. -/
def sampleResult (b : Bool) : DownloadResult :=
  { TrackID := 7, Title := "t", Artist := "a", Album := "b",
    FilePath := "p", FileSize := 10, Quality := "q", CoverURL := "u",
    Success := b, Error := "" }

/-- A stopped manager state. -/
def stoppedSt : DMState :=
  { running := false, paused := false, queueClosed := true, queue := [],
    activeJobs := [], failedJobs := [], signaled := [], nextToken := 0,
    hasProgress := true }

/-- A running manager state with empty registries. -/
def runningSt : DMState :=
  { running := true, paused := false, queueClosed := false, queue := [],
    activeJobs := [], failedJobs := [], signaled := [], nextToken := 0,
    hasProgress := true }

/-- A running state with job 1 active and job 2 still queued. -/
def activeSt : DMState :=
  { running := true, paused := false, queueClosed := false,
    queue := [sampleJob 2 1], activeJobs := [(1, sampleJob 1 0)],
    failedJobs := [], signaled := [], nextToken := 2, hasProgress := true }

/-- A running, paused state. -/
def pausedSt : DMState :=
  { running := true, paused := true, queueClosed := false, queue := [],
    activeJobs := [], failedJobs := [], signaled := [], nextToken := 0,
    hasProgress := true }

/-- A running state whose failed registry holds jobs 1 and 2. -/
def failedSt : DMState :=
  { running := true, paused := false, queueClosed := false, queue := [],
    activeJobs := [], failedJobs := [(1, sampleJob 1 0), (2, sampleJob 2 1)],
    signaled := [], nextToken := 5, hasProgress := true }

/-! Helper lemmas. -/

theorem mapLookup_mapDelete_self (k : Int) (m : List (Int × DownloadJob)) :
    mapLookup k (mapDelete k m) = none := by
  induction m with
  | nil => rfl
  | cons p rest ih =>
      by_cases h : p.1 = k
      · simpa [mapDelete, h] using ih
      · simpa [mapDelete, mapLookup, h] using ih

/-- Shape of the events of any non-panicking `processJob` run: nothing
when the callback is nil, otherwise exactly one terminal status, preceded
by `downloading` unless the job was already cancelled at the pre-fetch
check, all carrying the job's id. -/
theorem processJob_events_shape (hp : Bool) (job : DownloadJob)
    (pre post : Bool) (res : Option DownloadResult) (err : Option String)
    (ps : List Step) (h : processJob hp job pre post res err = some ps) :
    ∃ t : Status, t.isTerminal = true ∧
      stepEvents ps =
        if hp then
          (if job.hasCtx && pre then []
           else [(job.TrackID, Status.downloading)]) ++ [(job.TrackID, t)]
        else [] := by
  simp only [processJob] at h
  split at h
  next h1 =>
    injection h with h
    subst h
    exact ⟨Status.cancelled, rfl, by cases hp <;> simp [stepEvents, emitIf, h1]⟩
  next h1 =>
    rw [Bool.not_eq_true] at h1
    split at h
    next h2 =>
      injection h with h
      subst h
      exact ⟨Status.cancelled, rfl, by
        cases hp <;> simp [stepEvents, emitIf, h1]⟩
    next h2 =>
      split at h
      next h3 =>
        injection h with h
        subst h
        exact ⟨Status.error, rfl, by
          cases hp <;> simp [stepEvents, emitIf, h1]⟩
      next h3 =>
        split at h
        · exact absurd h (by simp)
        · split at h
          next h4 =>
            injection h with h
            subst h
            exact ⟨Status.error, rfl, by
              cases hp <;> simp [stepEvents, emitIf, h1]⟩
          next h4 =>
            injection h with h
            subst h
            exact ⟨Status.completed, rfl, by
              cases hp <;> simp [stepEvents, emitIf, h1]⟩

/-- The retry loop over a running manager: every `QueueDownload` call
succeeds, so the loop appends the fresh copies to the queue in order,
advances the token counter once per job, leaves the failed registry as it
found it, and counts every job. -/
theorem retryStep_foldl_running (jobs : List DownloadJob) :
    ∀ (st : DMState) (steps0 : List Step) (n0 : Nat),
      st.running = true →
      (jobs.foldl retryStep (st, steps0, n0)).1.running = true ∧
      (jobs.foldl retryStep (st, steps0, n0)).1.failedJobs =
        st.failedJobs ∧
      (jobs.foldl retryStep (st, steps0, n0)).1.queue =
        st.queue ++ freshCopies jobs st.nextToken ∧
      (jobs.foldl retryStep (st, steps0, n0)).1.nextToken =
        st.nextToken + jobs.length ∧
      (jobs.foldl retryStep (st, steps0, n0)).2.2 = n0 + jobs.length := by
  induction jobs with
  | nil =>
      intro st steps0 n0 h
      simp [freshCopies, h]
  | cons j rest ih =>
      intro st steps0 n0 h
      have hstep : retryStep (st, steps0, n0) j =
          ({ st with
              queue := st.queue ++
                [mkJob j.TrackID j.OutputDir j.Title j.Artist st.nextToken],
              nextToken := st.nextToken + 1 },
           steps0 ++ queueDownloadSteps st.hasProgress
             (mkJob j.TrackID j.OutputDir j.Title j.Artist st.nextToken),
           n0 + 1) := by
        by_cases hp : st.hasProgress <;>
          simp [retryStep, QueueDownload, h, queueDownloadSteps, emitIf,
            hp, applySteps, applyStep]
      rw [List.foldl_cons, hstep]
      obtain ⟨r1, r2, r3, r4, r5⟩ := ih
        { st with
            queue := st.queue ++
              [mkJob j.TrackID j.OutputDir j.Title j.Artist st.nextToken],
            nextToken := st.nextToken + 1 }
        (steps0 ++ queueDownloadSteps st.hasProgress
          (mkJob j.TrackID j.OutputDir j.Title j.Artist st.nextToken))
        (n0 + 1) h
      refine ⟨r1, r2, ?_, ?_, ?_⟩
      · rw [r3]
        simp [freshCopies, List.append_assoc]
      · have r4' : ({ st with
            queue := st.queue ++
              [mkJob j.TrackID j.OutputDir j.Title j.Artist st.nextToken],
            nextToken := st.nextToken + 1 } : DMState).nextToken =
            st.nextToken + 1 := rfl
        rw [r4, r4', List.length_cons]
        omega
      · rw [r5, List.length_cons]
        omega

/-- The retry loop over a stopped manager: every `QueueDownload` call
fails with NotRunning, so the loop changes nothing and counts nothing. -/
theorem retryStep_foldl_stopped (jobs : List DownloadJob) :
    ∀ (st : DMState) (steps0 : List Step) (n0 : Nat),
      st.running = false →
      jobs.foldl retryStep (st, steps0, n0) = (st, steps0, n0) := by
  induction jobs with
  | nil => intro st steps0 n0 h; rfl
  | cons j rest ih =>
      intro st steps0 n0 h
      rw [List.foldl_cons]
      have hstep : retryStep (st, steps0, n0) j = (st, steps0, n0) := by
        simp [retryStep, QueueDownload, h]
      rw [hstep]
      exact ih st steps0 n0 h

/-- Every fresh copy carries a cancellation context and a token id at
least the starting counter value. -/
theorem freshCopies_tokens (jobs : List DownloadJob) :
    ∀ tok : Nat, ∀ j ∈ freshCopies jobs tok,
      j.hasCtx = true ∧ tok ≤ j.tokenId := by
  induction jobs with
  | nil => intro tok j hj; simp [freshCopies] at hj
  | cons x rest ih =>
      intro tok j hj
      simp only [freshCopies, List.mem_cons] at hj
      rcases hj with h | h
      · subst h
        exact ⟨rfl, Nat.le_refl _⟩
      · obtain ⟨h1, h2⟩ := ih (tok + 1) j h
        exact ⟨h1, Nat.le_trans (Nat.le_succ tok) h2⟩

/-! Claim theorems. -/

/-- C6: whenever the manager is not running, QueueDownload returns the
NotRunning error and admits nothing (the state is unchanged, no step is
performed); whenever it is running, QueueDownload admits the job (appends
it to the queue, with a fresh cancellation token) and returns no error,
leaving the manager running. -/
theorem queueDownload_running_spec (dm : DMState) (tid : Int)
    (dir t a : String) :
    (dm.running = false →
      QueueDownload dm tid dir t a = (dm, [], some DMError.notRunning)) ∧
    (dm.running = true →
      (QueueDownload dm tid dir t a).2.2 = none ∧
      (QueueDownload dm tid dir t a).1.queue =
        dm.queue ++ [mkJob tid dir t a dm.nextToken] ∧
      (QueueDownload dm tid dir t a).1.running = true) := by
  constructor
  · intro h
    simp [QueueDownload, h]
  · intro h
    by_cases hp : dm.hasProgress <;>
      simp [QueueDownload, h, queueDownloadSteps, emitIf, hp, applySteps,
        applyStep]

/-- C6 witness: QueueDownload at a concrete stopped state and a concrete
running state. -/
theorem queueDownload_running_spec_witness :
    QueueDownload stoppedSt 1 "o" "t" "a" =
      (stoppedSt, [], some DMError.notRunning) ∧
    (QueueDownload runningSt 1 "o" "t" "a").2.2 = none := by
  refine ⟨(queueDownload_running_spec stoppedSt 1 "o" "t" "a").1 rfl,
    ((queueDownload_running_spec runningSt 1 "o" "t" "a").2 rfl).1⟩

/-- C5: CancelDownload returns the JobNotActive error exactly when the id
is absent from the active registry; when the id is present it signals the
job's cancellation token (recorded by token id) and returns no error.  In
particular an id whose job is still waiting in the queue but not active
gets JobNotActive. -/
theorem cancelDownload_active_iff (dm : DMState) (tid : Int) :
    ((CancelDownload dm tid).2 = some (DMError.jobNotActive tid) ↔
      mapLookup tid dm.activeJobs = none) ∧
    (∀ job, mapLookup tid dm.activeJobs = some job →
      (CancelDownload dm tid).2 = none ∧
      (job.hasCtx = true →
        (CancelDownload dm tid).1.signaled = job.tokenId :: dm.signaled)) ∧
    (∀ job, job ∈ dm.queue → mapLookup tid dm.activeJobs = none →
      (CancelDownload dm tid).2 = some (DMError.jobNotActive tid)) := by
  rcases h : mapLookup tid dm.activeJobs with _ | job
  · simp [CancelDownload, h]
  · refine ⟨by simp [CancelDownload, h], ?_, by simp [h]⟩
    intro job1 hj
    cases hj
    by_cases hc : job.hasCtx <;> simp [CancelDownload, h, hc]

/-- C5 witness: a concrete state with job 1 active and job 2 queued. -/
theorem cancelDownload_active_iff_witness :
    (CancelDownload activeSt 1).2 = none ∧
    (CancelDownload activeSt 1).1.signaled = [0] ∧
    (CancelDownload activeSt 2).2 = some (DMError.jobNotActive 2) := by
  refine ⟨((cancelDownload_active_iff activeSt 1).2.1 (sampleJob 1 0)
      rfl).1,
    ((cancelDownload_active_iff activeSt 1).2.1 (sampleJob 1 0) rfl).2 rfl,
    (cancelDownload_active_iff activeSt 2).2.2 (sampleJob 2 1)
      (by simp [activeSt]) rfl⟩

/-- C7: PauseQueue and ResumeQueue are idempotent boolean signals that
never error: PauseQueue returns false leaving the state unchanged when
already paused and otherwise only sets the paused flag returning true;
ResumeQueue returns false leaving the state unchanged when not paused and
otherwise only clears the paused flag (broadcasting) returning true; a
second consecutive Stop leaves the state unchanged, does not reach the
queue close, and performs no emit step (Stop performs none at all). -/
theorem pause_resume_stop_idempotent (dm : DMState) :
    (dm.paused = true → PauseQueue dm = (dm, false)) ∧
    (dm.paused = false →
      PauseQueue dm = ({ dm with paused := true }, true)) ∧
    (dm.paused = false → ResumeQueue dm = (dm, false)) ∧
    (dm.paused = true →
      ResumeQueue dm = ({ dm with paused := false }, true)) ∧
    (PauseQueue (PauseQueue dm).1).2 = false ∧
    (ResumeQueue (ResumeQueue dm).1).2 = false ∧
    Stop (Stop dm) = Stop dm ∧
    stopCloses (Stop dm) = false := by
  by_cases h : dm.paused <;> by_cases hr : dm.running <;>
    simp [PauseQueue, ResumeQueue, Stop, stopCloses, h, hr]

/-- C7 witness: the paused-state clauses at a concrete paused state. -/
theorem pause_resume_stop_idempotent_witness :
    PauseQueue pausedSt = (pausedSt, false) ∧
    ResumeQueue pausedSt = ({ pausedSt with paused := false }, true) := by
  exact ⟨(pause_resume_stop_idempotent pausedSt).1 rfl,
    (pause_resume_stop_idempotent pausedSt).2.2.2.1 rfl⟩

/-- C8: every non-panicking execution of processJob emits at most one
terminal event, and (with a progress callback installed) exactly one
terminal status, chosen among cancelled, error and completed; no status is
emitted twice (the event list has no duplicates) and every event carries
the job's own id. -/
theorem processJob_single_terminal (hp : Bool) (job : DownloadJob)
    (pre post : Bool) (res : Option DownloadResult) (err : Option String)
    (ps : List Step) (h : processJob hp job pre post res err = some ps) :
    ((stepEvents ps).filter fun e => e.2.isTerminal).length ≤ 1 ∧
    (hp = true →
      ((stepEvents ps).filter fun e => e.2.isTerminal).length = 1) ∧
    (stepEvents ps).Nodup ∧
    (∀ e ∈ stepEvents ps, e.1 = job.TrackID) := by
  obtain ⟨t, ht, hev⟩ := processJob_events_shape hp job pre post res err ps h
  rw [hev]
  cases hp with
  | false => simp
  | true =>
      have hne : (Status.downloading).isTerminal = false := rfl
      have htd : t ≠ Status.downloading := by
        intro he
        rw [he] at ht
        exact absurd (hne ▸ ht) (by simp)
      by_cases h1 : (job.hasCtx && pre) = true <;>
        simp [h1, ht, hne, htd, Ne.symm htd]

/-- C8 witness: a successful run of job 7 with the callback installed. -/
theorem processJob_single_terminal_witness :
    ((stepEvents ((processJob true (sampleJob 7 0) false false
        (some (sampleResult true)) none).getD [])).filter
      fun e => e.2.isTerminal).length = 1 := by
  have h := processJob_single_terminal true (sampleJob 7 0) false false
    (some (sampleResult true)) none
    ((processJob true (sampleJob 7 0) false false
      (some (sampleResult true)) none).getD []) rfl
  exact h.2.1 rfl

/-- C3: if the job's cancellation token is signaled at the post-fetch
check (having not been signaled at the pre-fetch one), the terminal event
is `cancelled` whatever the fetch returned (any result, any error), no
insertion into the failed registry is performed, and the failed registry
of the resulting state has no entry for the job's id. -/
theorem postfetch_cancel_terminal_cancelled (hp : Bool)
    (job : DownloadJob) (res : Option DownloadResult) (err : Option String)
    (hc : job.hasCtx = true) :
    ∃ ps, processJob hp job false true res err = some ps ∧
      ((stepEvents ps).filter fun e => e.2.isTerminal) =
        (if hp then [(job.TrackID, Status.cancelled)] else []) ∧
      (∀ j, Step.insertFailed j ∉ ps) ∧
      ∀ st : DMState,
        mapLookup job.TrackID (applySteps st ps).failedJobs = none := by
  refine ⟨emitIf hp job.TrackID Status.downloading none ++
    [Step.insertActive job, Step.deleteFailed job.TrackID,
     Step.fetch job.TrackID job.OutputDir, Step.removeActive job.TrackID] ++
    emitIf hp job.TrackID Status.cancelled none ++ [Step.sendResult res],
    ?_, ?_, ?_, ?_⟩
  · simp [processJob, hc]
  · cases hp <;> simp [stepEvents, emitIf, Status.isTerminal]
  · intro j
    cases hp <;> simp [emitIf]
  · intro st
    cases hp <;>
      simp [emitIf, applySteps, applyStep, mapLookup_mapDelete_self]

/-- C3 witness: job 7 cancelled mid-fetch while the fetch succeeded. -/
theorem postfetch_cancel_terminal_cancelled_witness :
    ((stepEvents ((processJob true (sampleJob 7 0) false true
        (some (sampleResult true)) none).getD [])).filter
      fun e => e.2.isTerminal) = [(7, Status.cancelled)] := by
  obtain ⟨ps, h1, h2, h3, h4⟩ := postfetch_cancel_terminal_cancelled true
    (sampleJob 7 0) (some (sampleResult true)) none rfl
  rw [h1]
  simpa using h2

/-- C9: processJob never dereferences the fetch result when the returned
error is non-nil (the run is total for every result value, nil included),
but an err-nil, result-nil return reaches the nil dereference in the
branch condition reading result.Success: the run panics (`none`). -/
theorem processJob_nil_result_panic (hp : Bool) (job : DownloadJob)
    (pre post : Bool) :
    (∀ (res : Option DownloadResult) (e : String),
      (processJob hp job pre post res (some e)).isSome = true) ∧
    ((job.hasCtx && pre) = false → (job.hasCtx && post) = false →
      processJob hp job pre post none none = none) := by
  constructor
  · intro res e
    by_cases h1 : (job.hasCtx && pre) = true <;>
      by_cases h2 : (job.hasCtx && post) = true <;>
        simp [processJob, h1, h2]
  · intro h1 h2
    simp [processJob, h1, h2]

/-- C9 witness: job 7, a nil result with a non-nil error is handled; a nil
result with a nil error panics. -/
theorem processJob_nil_result_panic_witness :
    (processJob true (sampleJob 7 0) false false none
      (some "network timeout")).isSome = true ∧
    processJob true (sampleJob 7 0) false false none none = none := by
  exact ⟨(processJob_nil_result_panic true (sampleJob 7 0) false false).1
      none "network timeout",
    (processJob_nil_result_panic true (sampleJob 7 0) false false).2
      rfl rfl⟩

/-- C10: in every non-panicking execution of processJob that passes the
pre-fetch cancellation check (with the callback installed), the
`downloading` emit is the first step and the active-registry insertion
only the second, so after the emit alone the bookkeeping state is
untouched: for any state in which the id is not yet active, the active
count is unchanged and CancelDownload still returns JobNotActive. -/
theorem downloading_before_activeRegistry (job : DownloadJob)
    (pre post : Bool) (res : Option DownloadResult) (err : Option String)
    (ps : List Step) (hpre : (job.hasCtx && pre) = false)
    (h : processJob true job pre post res err = some ps) :
    ps[0]? = some (Step.emit job.TrackID Status.downloading none) ∧
    ps[1]? = some (Step.insertActive job) ∧
    ps.take 1 = [Step.emit job.TrackID Status.downloading none] ∧
    ∀ st : DMState, applySteps st (ps.take 1) = st ∧
      (mapLookup job.TrackID st.activeJobs = none →
        GetActiveCount (applySteps st (ps.take 1)) = GetActiveCount st ∧
        (CancelDownload (applySteps st (ps.take 1)) job.TrackID).2 =
          some (DMError.jobNotActive job.TrackID)) := by
  have hshape : ∃ tail, ps =
      Step.emit job.TrackID Status.downloading none ::
        Step.insertActive job :: tail := by
    simp [processJob, hpre, emitIf] at h
    split at h
    · exact ⟨_, Option.some.inj h.symm⟩
    · split at h
      · exact ⟨_, Option.some.inj h.symm⟩
      · split at h
        · exact absurd h (by simp)
        · split at h
          · exact ⟨_, Option.some.inj h.symm⟩
          · exact ⟨_, Option.some.inj h.symm⟩
  obtain ⟨tail, htail⟩ := hshape
  subst htail
  refine ⟨by simp, by simp, by simp, ?_⟩
  intro st
  refine ⟨rfl, ?_⟩
  intro hl
  exact ⟨rfl, by simp [applySteps, applyStep, CancelDownload, hl]⟩

/-- C10 witness: job 7 processed from a state where only job 1 is active;
after the `downloading` emit alone, cancelling 7 still errors. -/
theorem downloading_before_activeRegistry_witness :
    ((processJob true (sampleJob 7 0) false false
        (some (sampleResult true)) none).getD [])[0]? =
      some (Step.emit 7 Status.downloading none) ∧
    (CancelDownload
        (applySteps activeSt
          (((processJob true (sampleJob 7 0) false false
            (some (sampleResult true)) none).getD []).take 1)) 7).2 =
      some (DMError.jobNotActive 7) := by
  have h := downloading_before_activeRegistry (sampleJob 7 0) false false
    (some (sampleResult true)) none
    ((processJob true (sampleJob 7 0) false false
      (some (sampleResult true)) none).getD []) rfl rfl
  exact ⟨h.1, ((h.2.2.2 activeSt).2 (by decide)).2⟩

/-- C4: RetryAllFailed snapshots and clears the failed registry, then
re-enqueues a fresh copy (new cancellation token) of each captured job.
It returns the number of successful re-enqueues: all of them when the
manager runs, zero when it is stopped; in both cases the failed registry
stays empty afterwards — jobs whose re-enqueue fails are dropped, not
restored. -/
theorem retryAllFailed_spec (dm : DMState) :
    (RetryAllFailed dm).1.failedJobs = [] ∧
    (dm.running = true →
      (RetryAllFailed dm).2.2 = dm.failedJobs.length ∧
      (RetryAllFailed dm).1.queue =
        dm.queue ++ freshCopies (dm.failedJobs.map Prod.snd) dm.nextToken ∧
      ∀ j ∈ freshCopies (dm.failedJobs.map Prod.snd) dm.nextToken,
        j.hasCtx = true ∧ dm.nextToken ≤ j.tokenId ∧
        ∀ p ∈ dm.failedJobs, p.2.tokenId < dm.nextToken →
          j.tokenId ≠ p.2.tokenId) ∧
    (dm.running = false →
      (RetryAllFailed dm).2.2 = 0 ∧
      (RetryAllFailed dm).1.queue = dm.queue ∧
      (RetryAllFailed dm).2.1 = []) := by
  cases hrun : dm.running with
  | false =>
    have h := retryStep_foldl_stopped (dm.failedJobs.map Prod.snd)
      { dm with failedJobs := [] } [] 0 hrun
    unfold RetryAllFailed
    rw [h]
    simp
  | true =>
    have h := retryStep_foldl_running (dm.failedJobs.map Prod.snd)
      { dm with failedJobs := [] } [] 0 hrun
    obtain ⟨r1, r2, r3, r4, r5⟩ := h
    unfold RetryAllFailed
    refine ⟨r2, ?_, by simp⟩
    intro _
    refine ⟨by rw [r5]; simp, by simpa using r3, ?_⟩
    intro j hj
    obtain ⟨h1, h2⟩ := freshCopies_tokens (dm.failedJobs.map Prod.snd)
      dm.nextToken j hj
    refine ⟨h1, h2, ?_⟩
    intro p _ hlt
    omega

/-- C4 witness: retrying a state with two failed jobs re-admits both and
leaves the failed registry empty. -/
theorem retryAllFailed_spec_witness :
    (RetryAllFailed failedSt).2.2 = 2 ∧
    (RetryAllFailed failedSt).1.failedJobs = [] := by
  have h := retryAllFailed_spec failedSt
  exact ⟨((h.2.1 rfl).1).trans rfl, h.1⟩

/-- C2 counterexample: in a running state whose failed registry holds
job 1, re-enqueueing id 1 succeeds (QueueDownload returns nil) yet
immediately after the call the failed registry still holds the entry and
GetFailedCount still counts it — the claimed removal on re-enqueue does
not happen (QueueDownload never touches the failed registry). -/
theorem failed_entry_survives_reenqueue_cex :
    mapLookup 1 failedSt.failedJobs = some (sampleJob 1 0) ∧
    (QueueDownload failedSt 1 "o" "t" "a").2.2 = none ∧
    mapLookup 1 (QueueDownload failedSt 1 "o" "t" "a").1.failedJobs =
      some (sampleJob 1 0) ∧
    GetFailedCount (QueueDownload failedSt 1 "o" "t" "a").1 = 2 := by
  exact ⟨rfl, rfl, rfl, rfl⟩

/-- C2 amended: a successful re-enqueue leaves the failed registry
unchanged; the stale entry is removed only when a worker begins executing
the re-enqueued job (processJob deletes it while marking the job active),
and after the job's successful terminal outcome (`completed`) the failed
registry holds no entry for that id. -/
theorem failed_entry_removed_when_execution_starts (dm : DMState)
    (tid : Int) (dir t a : String) (hrun : dm.running = true) :
    (QueueDownload dm tid dir t a).2.2 = none ∧
    (QueueDownload dm tid dir t a).1.failedJobs = dm.failedJobs ∧
    ∀ (hp : Bool) (job : DownloadJob) (r : DownloadResult)
      (ps : List Step) (st : DMState),
      job.TrackID = tid → r.Success = true →
      processJob hp job false false (some r) none = some ps →
      Step.deleteFailed tid ∈ ps ∧
      mapLookup tid (applySteps st ps).failedJobs = none ∧
      ((stepEvents ps).filter fun e => e.2.isTerminal) =
        (if hp then [(tid, Status.completed)] else []) := by
  refine ⟨?_, ?_, ?_⟩
  · simp [QueueDownload, hrun]
  · by_cases hp : dm.hasProgress <;>
      simp [QueueDownload, hrun, queueDownloadSteps, emitIf, hp,
        applySteps, applyStep]
  · intro hp job r ps st htid hS hps
    subst htid
    simp [processJob, hS] at hps
    subst hps
    refine ⟨by cases hp <;> simp [emitIf], ?_, ?_⟩
    · cases hp <;>
        simp [emitIf, applySteps, applyStep, mapLookup_mapDelete_self]
    · cases hp <;> simp [emitIf, stepEvents, Status.isTerminal]

/-- C2 amended witness: job 1 retried from `failedSt`; after the worker
runs it to success the failed registry no longer holds id 1. -/
theorem failed_entry_removed_when_execution_starts_witness :
    (QueueDownload failedSt 1 "o" "t" "a").1.failedJobs =
      failedSt.failedJobs ∧
    mapLookup 1 (applySteps failedSt
      ((processJob true (sampleJob 1 5) false false
        (some (sampleResult true)) none).getD [])).failedJobs = none := by
  have h := failed_entry_removed_when_execution_starts failedSt 1 "o" "t"
    "a" rfl
  exact ⟨h.2.1,
    (h.2.2 true (sampleJob 1 5) (sampleResult true)
      ((processJob true (sampleJob 1 5) false false
        (some (sampleResult true)) none).getD []) failedSt rfl rfl
      rfl).2.1⟩

/-- The worker's steps for a successful, uncancelled run of job 7 (the
value of `processJob` there, spelled out). -/
def cexWorkerSteps : List Step :=
  [Step.emit 7 Status.downloading none,
   Step.insertActive (sampleJob 7 0), Step.deleteFailed 7,
   Step.fetch 7 "o", Step.removeActive 7,
   Step.emit 7 Status.completed (some (sampleResult true)),
   Step.sendResult (some (sampleResult true))]

/-- A merged trace in which the worker runs the whole job between the
producer's channel send and its `queued` emit. -/
def cexTrace : List Step :=
  Step.sendJob (sampleJob 7 0) ::
    (cexWorkerSteps ++ [Step.emit 7 Status.queued none])

/-- C1 counterexample: `QueueDownload` performs the channel send strictly
before the `queued` emit, and a worker may dequeue the job as soon as the
send has happened.  `cexTrace` is such an admissible trace — the send,
then an interleaving of the producer's remaining `queued` emit with the
worker's steps for job 7 — and in it the listener observes `downloading`
(and `completed`) strictly before `queued` for the same job, so `queued`
is not observed strictly before every later `downloading`. -/
theorem downloading_observed_before_queued_cex :
    queueDownloadSteps true (sampleJob 7 0) =
      Step.sendJob (sampleJob 7 0) :: [Step.emit 7 Status.queued none] ∧
    processJob true (sampleJob 7 0) false false
      (some (sampleResult true)) none = some cexWorkerSteps ∧
    Interleaving [Step.emit 7 Status.queued none] cexWorkerSteps
      (cexWorkerSteps ++ [Step.emit 7 Status.queued none]) ∧
    cexTrace = Step.sendJob (sampleJob 7 0) ::
      (cexWorkerSteps ++ [Step.emit 7 Status.queued none]) ∧
    stepEvents cexTrace =
      [(7, Status.downloading), (7, Status.completed),
       (7, Status.queued)] := by
  refine ⟨rfl, rfl, ?_, rfl, rfl⟩
  show Interleaving [Step.emit 7 Status.queued none] cexWorkerSteps
    (cexWorkerSteps ++ [Step.emit 7 Status.queued none])
  rw [cexWorkerSteps]
  repeat first
    | exact Interleaving.nil
    | apply Interleaving.left
    | apply Interleaving.right

/-- C1 amended: on successful admission QueueDownload does emit `queued`
synchronously before returning, but only after the channel send that
publishes the job to the workers; the claimed observation order holds in
every trace in which the worker's steps come after QueueDownload's steps
(no interleaving): there every `downloading` observation is strictly
preceded by a `queued` observation. -/
theorem queued_precedes_downloading_serial (dm : DMState) (tid : Int)
    (dir t a : String) (hrun : dm.running = true)
    (hp : dm.hasProgress = true) :
    (QueueDownload dm tid dir t a).2.2 = none ∧
    (QueueDownload dm tid dir t a).2.1 =
      [Step.sendJob (mkJob tid dir t a dm.nextToken),
       Step.emit tid Status.queued none] ∧
    ∀ (ps : List Step) (j : Nat),
      (stepEvents ((QueueDownload dm tid dir t a).2.1 ++ ps))[j]? =
        some (tid, Status.downloading) →
      ∃ i, i < j ∧
        (stepEvents ((QueueDownload dm tid dir t a).2.1 ++ ps))[i]? =
          some (tid, Status.queued) := by
  have hq : (QueueDownload dm tid dir t a).2.1 =
      [Step.sendJob (mkJob tid dir t a dm.nextToken),
       Step.emit tid Status.queued none] := by
    simp [QueueDownload, hrun, hp, queueDownloadSteps, emitIf, mkJob]
  refine ⟨by simp [QueueDownload, hrun], hq, ?_⟩
  intro ps j hj
  rw [hq] at hj
  refine ⟨0, ?_, ?_⟩
  · rcases Nat.eq_zero_or_pos j with h0 | h0
    · subst h0
      simp [stepEvents] at hj
    · exact h0
  · rw [hq]
    simp [stepEvents]

/-- C1 amended witness: a concrete running state; the queued emit is the
last producer step, after the channel send. -/
theorem queued_precedes_downloading_serial_witness :
    (QueueDownload runningSt 1 "o" "t" "a").2.2 = none ∧
    (QueueDownload runningSt 1 "o" "t" "a").2.1 =
      [Step.sendJob (mkJob 1 "o" "t" "a" 0),
       Step.emit 1 Status.queued none] := by
  exact ⟨(queued_precedes_downloading_serial runningSt 1 "o" "t" "a"
      rfl rfl).1,
    (queued_precedes_downloading_serial runningSt 1 "o" "t" "a"
      rfl rfl).2.1⟩

end FLACidal
